import Mathlib

/-!
Verification of the screen-capture core of SnarpingTool (src/app.py).

The Python code is shallowly embedded: the `Region` dataclass becomes a
Lean structure whose construction goes through an `Except`-valued
constructor mirroring `Region.__post_init__`; the `VideoRecorder`
lifecycle (`start_recording`, `stop_recording`, `_record_loop`,
`_cleanup`) becomes explicit state passing over a recorder state plus an
event trace, with the external world (whether the writer opens, whether a
capture or a frame write raises, the monotonic clock readings, the value
of the shared stop flag observed at each top-of-cycle check) supplied as
oracle inputs.
-/

/-- The `Region` dataclass of app.py: fields x, y, width, height as Python
integers. Construction in Python always runs `__post_init__`; here raw
`Region.mk` is the unchecked record and `mkRegion` is the checked
constructor. -/
structure Region where
  x : Int
  y : Int
  width : Int
  height : Int
deriving Repr, DecidableEq

/-- Validation of `Region.__post_init__` (app.py lines 41-46): width and
height must be positive, coordinates non-negative; the raised
`ValueError` messages are carried in the `Except.error` branch. -/
def mkRegion (x y width height : Int) : Except String Region :=
  if width ≤ 0 ∨ height ≤ 0 then
    Except.error "Width and height must be positive"
  else if x < 0 ∨ y < 0 then
    Except.error "Coordinates must be non-negative"
  else
    Except.ok ⟨x, y, width, height⟩

/-- Embedding of `Region.as_tuple` (app.py lines 48-51). -/
def Region.as_tuple (r : Region) : Int × Int × Int × Int :=
  (r.x, r.y, r.width, r.height)

/-- Embedding of `Region.make_even_dimensions` (app.py lines 53-60): builds
`Region(x, y, width - width % 2, height - height % 2)`, which re-runs the
`__post_init__` validation and can therefore raise. -/
def Region.make_even_dimensions (r : Region) : Except String Region :=
  mkRegion r.x r.y (r.width - r.width % 2) (r.height - r.height % 2)

/-- The invariant `__post_init__` enforces on every constructed Region. -/
def Region.valid (r : Region) : Prop :=
  0 < r.width ∧ 0 < r.height ∧ 0 ≤ r.x ∧ 0 ≤ r.y

instance (r : Region) : Decidable r.valid := by
  unfold Region.valid
  infer_instance

lemma mkRegion_ok_iff (x y w h : Int) (r : Region) :
    mkRegion x y w h = Except.ok r ↔
      (0 < w ∧ 0 < h ∧ 0 ≤ x ∧ 0 ≤ y) ∧ r = ⟨x, y, w, h⟩ := by
  unfold mkRegion
  split_ifs with h1 h2
  · constructor
    · intro hc
      exact absurd hc (by simp)
    · rintro ⟨⟨hw, hh, _, _⟩, _⟩
      omega
  · constructor
    · intro hc
      exact absurd hc (by simp)
    · rintro ⟨⟨_, _, hx, hy⟩, _⟩
      omega
  · constructor
    · intro hc
      refine ⟨⟨by omega, by omega, by omega, by omega⟩, ?_⟩
      exact (Except.ok.injEq _ _ ▸ hc).symm
    · rintro ⟨_, rfl⟩
      rfl

lemma mkRegion_error_iff (x y w h : Int) :
    (∃ e, mkRegion x y w h = Except.error e) ↔ (w ≤ 0 ∨ h ≤ 0 ∨ x < 0 ∨ y < 0) := by
  unfold mkRegion
  split_ifs with h1 h2
  · exact ⟨fun _ => by omega, fun _ => ⟨_, rfl⟩⟩
  · exact ⟨fun _ => by omega, fun _ => ⟨_, rfl⟩⟩
  · constructor
    · rintro ⟨e, he⟩
      exact absurd he (by simp)
    · intro hc
      omega

/-- C3: Region construction fails exactly when width ≤ 0, height ≤ 0,
x < 0 or y < 0; for every other input it succeeds and the constructed
fields round-trip the constructor arguments exactly. -/
theorem region_construction_exact (x y w h : Int) :
    ((∃ r, mkRegion x y w h = Except.ok r ∧
        r.x = x ∧ r.y = y ∧ r.width = w ∧ r.height = h) ↔
      (0 < w ∧ 0 < h ∧ 0 ≤ x ∧ 0 ≤ y)) ∧
    ((∃ e, mkRegion x y w h = Except.error e) ↔
      (w ≤ 0 ∨ h ≤ 0 ∨ x < 0 ∨ y < 0)) := by
  constructor
  · constructor
    · rintro ⟨r, hr, _⟩
      exact ((mkRegion_ok_iff x y w h r).1 hr).1
    · intro hc
      exact ⟨⟨x, y, w, h⟩, (mkRegion_ok_iff x y w h _).2 ⟨hc, rfl⟩, rfl, rfl, rfl, rfl⟩
  · exact mkRegion_error_iff x y w h

/-- Witness for C3 at a concrete input. -/
theorem region_construction_exact_witness :
    ∃ r, mkRegion 3 4 101 51 = Except.ok r ∧
      r.x = 3 ∧ r.y = 4 ∧ r.width = 101 ∧ r.height = 51 :=
  (region_construction_exact 3 4 101 51).1.mpr (by norm_num)

/-- C2 counterexample: the Region (0, 0, 1, 2) is validly constructed,
yet `make_even_dimensions` on it fails (the decremented width 0 is
rejected by the `__post_init__` positivity check) instead of returning a
Region, refuting the claim that it never fails. -/
theorem make_even_dimensions_fails_on_width_one :
    mkRegion 0 0 1 2 = Except.ok ⟨0, 0, 1, 2⟩ ∧
    Region.make_even_dimensions ⟨0, 0, 1, 2⟩ =
      Except.error "Width and height must be positive" := by
  exact ⟨rfl, rfl⟩

/-- C2 (amended): for every validly constructed Region whose width and
height are both at least 2, `make_even_dimensions` succeeds and returns a
Region with the same x and y whose width and height are each the original
decremented by 1 if odd and unchanged if even, hence even and at most the
original; with both inputs at least 2 neither result dimension is 0. -/
theorem make_even_dimensions_correct (r : Region) (hv : r.valid)
    (hw : 2 ≤ r.width) (hh : 2 ≤ r.height) :
    ∃ r', r.make_even_dimensions = Except.ok r' ∧
      r'.x = r.x ∧ r'.y = r.y ∧
      (r.width % 2 = 1 → r'.width = r.width - 1) ∧
      (r.width % 2 = 0 → r'.width = r.width) ∧
      (r.height % 2 = 1 → r'.height = r.height - 1) ∧
      (r.height % 2 = 0 → r'.height = r.height) ∧
      r'.width % 2 = 0 ∧ r'.height % 2 = 0 ∧
      r'.width ≤ r.width ∧ r'.height ≤ r.height ∧
      0 < r'.width ∧ 0 < r'.height := by
  obtain ⟨_, _, hx, hy⟩ := hv
  refine ⟨⟨r.x, r.y, r.width - r.width % 2, r.height - r.height % 2⟩, ?_, rfl, rfl,
    ?_, ?_, ?_, ?_, ?_, ?_, ?_, ?_, ?_, ?_⟩
  · exact (mkRegion_ok_iff _ _ _ _ _).2 ⟨⟨by omega, by omega, hx, hy⟩, rfl⟩
  all_goals
    simp only
    omega

/-- Witness for C2 (amended) at the concrete Region (10, 10, 101, 51). -/
theorem make_even_dimensions_correct_witness :
    ∃ r', Region.make_even_dimensions ⟨10, 10, 101, 51⟩ = Except.ok r' ∧
      r'.x = 10 ∧ r'.y = 10 ∧
      ((101 : Int) % 2 = 1 → r'.width = 101 - 1) ∧
      ((101 : Int) % 2 = 0 → r'.width = 101) ∧
      ((51 : Int) % 2 = 1 → r'.height = 51 - 1) ∧
      ((51 : Int) % 2 = 0 → r'.height = 51) ∧
      r'.width % 2 = 0 ∧ r'.height % 2 = 0 ∧
      r'.width ≤ 101 ∧ r'.height ≤ 51 ∧
      0 < r'.width ∧ 0 < r'.height :=
  make_even_dimensions_correct ⟨10, 10, 101, 51⟩ (by decide) (by decide) (by decide)

/-- C10: for every validly constructed Region, `make_even_dimensions`
raises (the decremented dimension 0 fails the positivity check of Region
construction) whenever width = 1 or height = 1, and returns normally
whenever width ≥ 2 and height ≥ 2. -/
theorem make_even_dimensions_error_exactly_at_one (r : Region) (hv : r.valid) :
    ((r.width = 1 ∨ r.height = 1) → ∃ e, r.make_even_dimensions = Except.error e) ∧
    (2 ≤ r.width → 2 ≤ r.height → ∃ r', r.make_even_dimensions = Except.ok r') := by
  obtain ⟨hw, hh, hx, hy⟩ := hv
  constructor
  · intro hone
    exact (mkRegion_error_iff _ _ _ _).2 (by omega)
  · intro hw2 hh2
    exact ⟨⟨r.x, r.y, r.width - r.width % 2, r.height - r.height % 2⟩,
      (mkRegion_ok_iff _ _ _ _ _).2 ⟨⟨by omega, by omega, hx, hy⟩, rfl⟩⟩

/-- Witness for C10 at the concrete Regions (0, 0, 1, 5) and (0, 0, 4, 4). -/
theorem make_even_dimensions_error_exactly_at_one_witness :
    (∃ e, Region.make_even_dimensions ⟨0, 0, 1, 5⟩ = Except.error e) ∧
    (∃ r', Region.make_even_dimensions ⟨0, 0, 4, 4⟩ = Except.ok r') :=
  ⟨(make_even_dimensions_error_exactly_at_one ⟨0, 0, 1, 5⟩ (by decide)).1 (Or.inl rfl),
   (make_even_dimensions_error_exactly_at_one ⟨0, 0, 4, 4⟩ (by decide)).2
     (by decide) (by decide)⟩

/-- Color channel order of an image buffer. A screenshot arrives in RGB
order; cv2.cvtColor with COLOR_RGB2BGR produces BGR order. -/
inductive ColorOrder
  | RGB
  | BGR
deriving Repr, DecidableEq

/-- An image buffer, abstracted to its dimensions and channel order. -/
structure Frame where
  width : Int
  height : Int
  order : ColorOrder
deriving Repr, DecidableEq

/-- cv2.cvtColor(frame, cv2.COLOR_RGB2BGR): changes channel order,
preserves dimensions (app.py line 180). -/
def cvtColor_RGB2BGR (f : Frame) : Frame :=
  ⟨f.width, f.height, ColorOrder.BGR⟩

/-- cv2.resize(frame, (w, h)): output buffer has exactly the requested
dimensions, channel order unchanged (app.py lines 184-188). -/
def cv_resize (f : Frame) (w h : Int) : Frame :=
  ⟨w, h, f.order⟩

/-- Observable effects of the recorder, in program order. -/
inductive Ev
  | openWriter (filename : String) (fps : Int) (width height : Int)
  | startThread
  | setStopEvent
  | releaseWriter
  | checkStop (value : Bool)
  | capture (rect : Int × Int × Int × Int)
  | convertColor
  | resize (width height : Int)
  | writeFrame (width height : Int)
  | sleep (duration : ℚ)
  | logError
  | loopExit
deriving Repr, DecidableEq

/-- The cv2.VideoWriter sink as opened by `start_recording` (app.py
lines 117-123): output path, fps and frame size. -/
structure Sink where
  filename : String
  fps : Int
  width : Int
  height : Int
deriving Repr, DecidableEq

/-- The mutable state of a `VideoRecorder` instance: the stored (already
even-dimension-normalized) region, fps and filename set by `__init__`,
the optional writer, the stop event flag, and whether a recording thread
was started (`_recording_thread is not None`). -/
structure VideoRecorder where
  region : Region
  fps : Int
  filename : String
  writer : Option Sink
  stop_event : Bool
  threadStarted : Bool
deriving Repr, DecidableEq

/-- Embedding of `VideoRecorder.__init__` (app.py lines 105-111): stores
`region.make_even_dimensions()` (which can raise), fps and filename;
writer starts as None, the stop event unset, no thread. -/
def VideoRecorder.init (region : Region) (fps : Int) (filename : String) :
    Except String VideoRecorder :=
  (region.make_even_dimensions).map fun r =>
    ⟨r, fps, filename, none, false, false⟩

/-- Embedding of `VideoRecorder._cleanup` (app.py lines 229-238): if a writer is held,
release it and set the field to None; otherwise do nothing. -/
def VideoRecorder.cleanup (vr : VideoRecorder) : VideoRecorder × List Ev :=
  match vr.writer with
  | some _ =>
      (⟨vr.region, vr.fps, vr.filename, none, vr.stop_event, vr.threadStarted⟩,
        [Ev.releaseWriter])
  | none => (vr, [])

/-- Embedding of `VideoRecorder.start_recording` (app.py lines 113-141). The oracle
`writerOpens` is the value of `self.writer.isOpened()`: when false the
code raises IOError, the except branch runs `_cleanup` and returns False;
when true the stop event is cleared, the recording thread is started and
True is returned. -/
def VideoRecorder.start_recording (vr : VideoRecorder) (writerOpens : Bool) :
    Bool × VideoRecorder × List Ev :=
  let sink : Sink := ⟨vr.filename, vr.fps, vr.region.width, vr.region.height⟩
  let vr1 : VideoRecorder :=
    ⟨vr.region, vr.fps, vr.filename, some sink, vr.stop_event, vr.threadStarted⟩
  let ev0 := Ev.openWriter vr.filename vr.fps vr.region.width vr.region.height
  if writerOpens then
    (true, ⟨vr1.region, vr1.fps, vr1.filename, vr1.writer, false, true⟩,
      [ev0, Ev.startThread])
  else
    let c := vr1.cleanup
    (false, c.1, ev0 :: c.2)

/-- Embedding of `VideoRecorder.stop_recording` (app.py lines 143-163). The oracle
`threadAlive` is `self._recording_thread.is_alive()` at entry;
`joinObserved` is whether the thread terminated within the join timeout.
When no thread was ever started or the thread is no longer alive, the
method returns True immediately, WITHOUT running `_cleanup`. Otherwise it
sets the stop event, joins, and the finally block runs `_cleanup`. -/
def VideoRecorder.stop_recording (vr : VideoRecorder) (threadAlive joinObserved : Bool) :
    Bool × VideoRecorder × List Ev :=
  if vr.threadStarted = false ∨ threadAlive = false then
    (true, vr, [])
  else
    let vr1 : VideoRecorder :=
      ⟨vr.region, vr.fps, vr.filename, vr.writer, true, vr.threadStarted⟩
    let c := vr1.cleanup
    (joinObserved, c.1, Ev.setStopEvent :: c.2)

/-- The per-frame pacing step of `_record_loop` (app.py lines 194-203):
advance the deadline by one frame interval, compute the sleep duration
against the clock reading taken after the write (`timeAfterWrite`); if it
is positive, keep the advanced deadline and sleep for that duration,
otherwise reset the deadline to the current clock reading
(`timeAtReset`, the perf_counter call on line 203) and do not sleep.
Returns (new deadline, sleep duration). -/
def nextDeadline (next_frame_time frame_interval timeAfterWrite timeAtReset : ℚ) :
    ℚ × ℚ :=
  let n := next_frame_time + frame_interval
  let sleep_duration := n - timeAfterWrite
  if 0 < sleep_duration then (n, sleep_duration) else (timeAtReset, 0)

/-- The frame conversion pipeline of one loop cycle (app.py lines
176-188): convert the captured RGB buffer to BGR, then, if its
(height, width) differs from the region dimensions, resize it to exactly
(region.width, region.height). Returns the frame handed to the writer
together with the conversion events. -/
def processFrame (region : Region) (captured : Frame) : Frame × List Ev :=
  if ((cvtColor_RGB2BGR captured).height, (cvtColor_RGB2BGR captured).width) ≠
      (region.height, region.width) then
    (cv_resize (cvtColor_RGB2BGR captured) region.width region.height,
      [Ev.convertColor, Ev.resize region.width region.height])
  else
    (cvtColor_RGB2BGR captured, [Ev.convertColor])

/-- Oracle inputs for one cycle of `_record_loop`: the value of the
shared stop flag observed at the top-of-cycle check, whether the
screenshot call raises, the dimensions of the captured buffer, whether
the writer.write call raises, and the two monotonic clock readings of
the cycle (line 196 and line 203). -/
structure CycleEnv where
  stopSet : Bool
  captureOk : Bool
  capturedW : Int
  capturedH : Int
  writeOk : Bool
  timeAfterWrite : ℚ
  timeAtReset : ℚ
deriving Repr, DecidableEq

/-- Embedding of `VideoRecorder._record_loop` (app.py lines 165-208) as a trace
function. Each list element drives one cycle; an exhausted list models a
loop that is still running (no exit event). The loop checks the stop flag
once at the top of each cycle and exits with `loopExit` (the finally
block) when it is set; a capture or write failure is caught by the except
branch, logged, and also ends in `loopExit`. Note that neither exit path
releases the writer: the finally block only logs. -/
def record_loop_aux (region : Region) (frame_interval : ℚ) :
    ℚ → List CycleEnv → List Ev
  | _, [] => []
  | next_frame_time, env :: rest =>
    if env.stopSet then
      [Ev.checkStop true, Ev.loopExit]
    else if env.captureOk = false then
      [Ev.checkStop false, Ev.capture region.as_tuple, Ev.logError, Ev.loopExit]
    else if env.writeOk = false then
      Ev.checkStop false :: Ev.capture region.as_tuple ::
        (processFrame region ⟨env.capturedW, env.capturedH, ColorOrder.RGB⟩).2 ++
        [Ev.writeFrame
            (processFrame region ⟨env.capturedW, env.capturedH, ColorOrder.RGB⟩).1.width
            (processFrame region ⟨env.capturedW, env.capturedH, ColorOrder.RGB⟩).1.height,
          Ev.logError, Ev.loopExit]
    else
      Ev.checkStop false :: Ev.capture region.as_tuple ::
        (processFrame region ⟨env.capturedW, env.capturedH, ColorOrder.RGB⟩).2 ++
        Ev.writeFrame
          (processFrame region ⟨env.capturedW, env.capturedH, ColorOrder.RGB⟩).1.width
          (processFrame region ⟨env.capturedW, env.capturedH, ColorOrder.RGB⟩).1.height ::
        (if 0 < (nextDeadline next_frame_time frame_interval
              env.timeAfterWrite env.timeAtReset).2 then
            [Ev.sleep (nextDeadline next_frame_time frame_interval
              env.timeAfterWrite env.timeAtReset).2]
          else []) ++
        record_loop_aux region frame_interval
          (nextDeadline next_frame_time frame_interval
            env.timeAfterWrite env.timeAtReset).1 rest

/-- The record loop of a given recorder: frame_interval is 1.0 / fps
(app.py line 167), the initial deadline is the clock reading at loop
start (line 168). -/
def record_loop (vr : VideoRecorder) (t0 : ℚ) (envs : List CycleEnv) : List Ev :=
  record_loop_aux vr.region (1 / (vr.fps : ℚ)) t0 envs

/-- One whole session: `start_recording`, then, exactly when a thread was
started, the record loop runs on it. -/
def run_session (vr : VideoRecorder) (writerOpens : Bool) (t0 : ℚ)
    (envs : List CycleEnv) : Bool × VideoRecorder × List Ev :=
  let s := vr.start_recording writerOpens
  if s.2.1.threadStarted then
    (s.1, s.2.1, s.2.2 ++ record_loop s.2.1 t0 envs)
  else
    (s.1, s.2.1, s.2.2)

def isCaptureEv : Ev → Bool
  | Ev.capture _ => true
  | _ => false

def isWriteEv : Ev → Bool
  | Ev.writeFrame _ _ => true
  | _ => false

def isCheckEv : Ev → Bool
  | Ev.checkStop _ => true
  | _ => false

def isReleaseEv : Ev → Bool
  | Ev.releaseWriter => true
  | _ => false

def countCaptures (l : List Ev) : Nat := l.countP isCaptureEv

def countWrites (l : List Ev) : Nat := l.countP isWriteEv

def countChecks (l : List Ev) : Nat := l.countP isCheckEv

def countReleases (l : List Ev) : Nat := l.countP isReleaseEv

/-- C7: calling stop_recording when no capture loop is running (no thread
was ever started, or the thread is no longer alive) is a no-op that
returns True, leaves the recorder state unchanged and performs no effect,
in particular no release of the writer. -/
theorem stop_recording_noop_when_not_running (vr : VideoRecorder)
    (threadAlive joinObserved : Bool)
    (h : vr.threadStarted = false ∨ threadAlive = false) :
    vr.stop_recording threadAlive joinObserved = (true, vr, []) := by
  unfold VideoRecorder.stop_recording
  rw [if_pos h]

/-- Witness for C7: stop before start on a fresh recorder. -/
theorem stop_recording_noop_when_not_running_witness :
    VideoRecorder.stop_recording
        ⟨⟨0, 0, 4, 4⟩, 30, "out.mp4", none, false, false⟩ true true =
      (true, ⟨⟨0, 0, 4, 4⟩, 30, "out.mp4", none, false, false⟩, []) :=
  stop_recording_noop_when_not_running _ true true (Or.inl rfl)

/-- C4: the pacing step advances the deadline by exactly one frame
interval; when the advanced deadline is still in the future the loop
sleeps for exactly the remaining time, and when it has already passed the
deadline is reset to the current clock reading instead of catching up, so
(as long as the clock is monotone between the two readings) the deadline
never lags behind the current time. -/
theorem next_deadline_policy (next fi tW tR : ℚ) :
    (tW < next + fi →
      nextDeadline next fi tW tR = (next + fi, next + fi - tW)) ∧
    (next + fi ≤ tW → nextDeadline next fi tW tR = (tR, 0)) ∧
    (tW ≤ tR → tW ≤ (nextDeadline next fi tW tR).1) := by
  refine ⟨?_, ?_, ?_⟩
  · intro h
    simp only [nextDeadline]
    rw [if_pos (by linarith)]
  · intro h
    simp only [nextDeadline]
    rw [if_neg (by simp only [not_lt]; linarith)]
  · intro h
    simp only [nextDeadline]
    split_ifs with hs
    · simp only
      linarith
    · simpa using h

/-- Witness for C4: a cycle that finished early sleeps until the advanced
deadline; a cycle that overran resets to the later clock reading. -/
theorem next_deadline_policy_witness :
    nextDeadline 0 1 0 0 = (1, 1) ∧ nextDeadline 0 1 2 3 = (3, 0) :=
  ⟨by simpa using (next_deadline_policy 0 1 0 0).1 (by norm_num),
   by simpa using (next_deadline_policy 0 1 2 3).2.1 (by norm_num)⟩

/-- C6: when the encoder sink cannot be opened, start_recording on a
fresh recorder returns False synchronously; no thread is started, so the
session runs no loop cycle at all: the whole session trace has no
startThread event, no capture and no write, the recorder stays
not-started, and the just-created writer is released exactly once. -/
theorem start_recording_failure_clean (vr : VideoRecorder) (t0 : ℚ)
    (envs : List CycleEnv) (hts : vr.threadStarted = false) :
    (run_session vr false t0 envs).1 = false ∧
    (run_session vr false t0 envs).2.1.threadStarted = false ∧
    (run_session vr false t0 envs).2.1.writer = none ∧
    (run_session vr false t0 envs).2.2 =
      [Ev.openWriter vr.filename vr.fps vr.region.width vr.region.height,
        Ev.releaseWriter] ∧
    countReleases (run_session vr false t0 envs).2.2 = 1 ∧
    countCaptures (run_session vr false t0 envs).2.2 = 0 ∧
    countWrites (run_session vr false t0 envs).2.2 = 0 ∧
    Ev.startThread ∉ (run_session vr false t0 envs).2.2 := by
  have hrun : run_session vr false t0 envs =
      (false, ⟨vr.region, vr.fps, vr.filename, none, vr.stop_event, vr.threadStarted⟩,
        [Ev.openWriter vr.filename vr.fps vr.region.width vr.region.height,
          Ev.releaseWriter]) := by
    simp [run_session, VideoRecorder.start_recording, VideoRecorder.cleanup, hts]
  rw [hrun]
  refine ⟨rfl, hts, rfl, rfl, ?_, ?_, ?_, ?_⟩
  · simp [countReleases, isReleaseEv]
  · simp [countCaptures, isCaptureEv]
  · simp [countWrites, isWriteEv]
  · simp

/-- Witness for C6 on a fresh recorder with a nonempty pending cycle
list, which the failed start never reaches. -/
theorem start_recording_failure_clean_witness :
    (run_session ⟨⟨0, 0, 4, 4⟩, 30, "out.mp4", none, false, false⟩ false 0
        [⟨false, true, 4, 4, true, 0, 0⟩]).1 = false ∧
    (run_session ⟨⟨0, 0, 4, 4⟩, 30, "out.mp4", none, false, false⟩ false 0
        [⟨false, true, 4, 4, true, 0, 0⟩]).2.1.threadStarted = false ∧
    (run_session ⟨⟨0, 0, 4, 4⟩, 30, "out.mp4", none, false, false⟩ false 0
        [⟨false, true, 4, 4, true, 0, 0⟩]).2.1.writer = none ∧
    (run_session ⟨⟨0, 0, 4, 4⟩, 30, "out.mp4", none, false, false⟩ false 0
        [⟨false, true, 4, 4, true, 0, 0⟩]).2.2 =
      [Ev.openWriter "out.mp4" 30 4 4, Ev.releaseWriter] ∧
    countReleases (run_session ⟨⟨0, 0, 4, 4⟩, 30, "out.mp4", none, false, false⟩
        false 0 [⟨false, true, 4, 4, true, 0, 0⟩]).2.2 = 1 ∧
    countCaptures (run_session ⟨⟨0, 0, 4, 4⟩, 30, "out.mp4", none, false, false⟩
        false 0 [⟨false, true, 4, 4, true, 0, 0⟩]).2.2 = 0 ∧
    countWrites (run_session ⟨⟨0, 0, 4, 4⟩, 30, "out.mp4", none, false, false⟩
        false 0 [⟨false, true, 4, 4, true, 0, 0⟩]).2.2 = 0 ∧
    Ev.startThread ∉ (run_session ⟨⟨0, 0, 4, 4⟩, 30, "out.mp4", none, false, false⟩
        false 0 [⟨false, true, 4, 4, true, 0, 0⟩]).2.2 :=
  start_recording_failure_clean ⟨⟨0, 0, 4, 4⟩, 30, "out.mp4", none, false, false⟩ 0
    [⟨false, true, 4, 4, true, 0, 0⟩] rfl

/-- The recorder used in the C1 scenario: the state VideoRecorder.init
produces for Region (0, 0, 4, 4) at 30 fps. -/
def leakRecorder : VideoRecorder :=
  ⟨⟨0, 0, 4, 4⟩, 30, "out.mp4", none, false, false⟩

/-- A loop cycle whose screenshot call raises (capture failure). -/
def leakEnv : CycleEnv := ⟨false, false, 4, 4, true, 0, 0⟩

/-- C1 (code bug): start succeeds, the first loop cycle fails in capture,
the loop terminates through its except/finally branch (which only logs),
and stop_recording, called after the thread has died, takes the early
return without running `_cleanup`. Over the whole session the writer
release count is 0, not 1, and the recorder still holds the open sink:
on the capture-failure termination path the encoder is never finalized,
contradicting the claim. -/
theorem capture_failure_writer_never_released :
    VideoRecorder.init ⟨0, 0, 4, 4⟩ 30 "out.mp4" = Except.ok leakRecorder ∧
    (leakRecorder.start_recording true).1 = true ∧
    (leakRecorder.start_recording true).2.1.threadStarted = true ∧
    record_loop (leakRecorder.start_recording true).2.1 0 [leakEnv] =
      [Ev.checkStop false, Ev.capture (0, 0, 4, 4), Ev.logError, Ev.loopExit] ∧
    ((leakRecorder.start_recording true).2.1.stop_recording false false).1 = true ∧
    ((leakRecorder.start_recording true).2.1.stop_recording false false).2.1.writer =
      some ⟨"out.mp4", 30, 4, 4⟩ ∧
    countReleases
      ((leakRecorder.start_recording true).2.2 ++
        record_loop (leakRecorder.start_recording true).2.1 0 [leakEnv] ++
        ((leakRecorder.start_recording true).2.1.stop_recording false false).2.2) = 0 := by
  refine ⟨rfl, rfl, rfl, rfl, rfl, rfl, rfl⟩

/-- Unfolding equation for one cycle of the record loop. -/
lemma record_loop_aux_cons (region : Region) (fi t0 : ℚ) (env : CycleEnv)
    (rest : List CycleEnv) :
    record_loop_aux region fi t0 (env :: rest) =
      if env.stopSet then
        [Ev.checkStop true, Ev.loopExit]
      else if env.captureOk = false then
        [Ev.checkStop false, Ev.capture region.as_tuple, Ev.logError, Ev.loopExit]
      else if env.writeOk = false then
        Ev.checkStop false :: Ev.capture region.as_tuple ::
          (processFrame region ⟨env.capturedW, env.capturedH, ColorOrder.RGB⟩).2 ++
          [Ev.writeFrame
              (processFrame region ⟨env.capturedW, env.capturedH, ColorOrder.RGB⟩).1.width
              (processFrame region ⟨env.capturedW, env.capturedH, ColorOrder.RGB⟩).1.height,
            Ev.logError, Ev.loopExit]
      else
        Ev.checkStop false :: Ev.capture region.as_tuple ::
          (processFrame region ⟨env.capturedW, env.capturedH, ColorOrder.RGB⟩).2 ++
          Ev.writeFrame
            (processFrame region ⟨env.capturedW, env.capturedH, ColorOrder.RGB⟩).1.width
            (processFrame region ⟨env.capturedW, env.capturedH, ColorOrder.RGB⟩).1.height ::
          (if 0 < (nextDeadline t0 fi env.timeAfterWrite env.timeAtReset).2 then
              [Ev.sleep (nextDeadline t0 fi env.timeAfterWrite env.timeAtReset).2]
            else []) ++
          record_loop_aux region fi
            (nextDeadline t0 fi env.timeAfterWrite env.timeAtReset).1 rest := rfl

/-- The frame handed to the writer always has exactly the region
dimensions and BGR channel order. -/
lemma processFrame_dims (region : Region) (f : Frame) :
    (processFrame region f).1.width = region.width ∧
    (processFrame region f).1.height = region.height ∧
    (processFrame region f).1.order = ColorOrder.BGR := by
  unfold processFrame cvtColor_RGB2BGR cv_resize
  split_ifs with h
  · exact ⟨rfl, rfl, rfl⟩
  · rw [not_not, Prod.mk.injEq] at h
    exact ⟨h.2, h.1, rfl⟩

/-- The conversion events of one cycle: always the color conversion,
followed by a resize exactly when the captured dimensions mismatch. -/
lemma processFrame_events (region : Region) (f : Frame) :
    (processFrame region f).2 = [Ev.convertColor] ∨
    (processFrame region f).2 =
      [Ev.convertColor, Ev.resize region.width region.height] := by
  unfold processFrame
  split_ifs <;> simp

/-- Every writeFrame event of a record loop trace carries exactly the
region dimensions. -/
lemma record_loop_aux_writes_sized (region : Region) (fi : ℚ) (envs : List CycleEnv) :
    ∀ t0 : ℚ, ∀ ev ∈ record_loop_aux region fi t0 envs, ∀ w h : Int,
      ev = Ev.writeFrame w h → w = region.width ∧ h = region.height := by
  induction envs with
  | nil =>
    intro t0 ev hev
    simp [record_loop_aux] at hev
  | cons env rest ih =>
    intro t0
    have hd := processFrame_dims region ⟨env.capturedW, env.capturedH, ColorOrder.RGB⟩
    have hp := processFrame_events region ⟨env.capturedW, env.capturedH, ColorOrder.RGB⟩
    rw [record_loop_aux_cons, hd.1, hd.2.1]
    split_ifs with h1 h2 h3 h4
    · simp
    · simp
    · rcases hp with hp | hp <;> rw [hp] <;>
        simp only [List.forall_mem_cons, List.forall_mem_nil, List.forall_mem_append,
          and_true, true_and, List.cons_append, List.nil_append, List.singleton_append]
      · exact ⟨by simp, by simp, by simp,
          by (intro w h heq; cases heq; exact ⟨rfl, rfl⟩), by simp, by simp⟩
      · exact ⟨by simp, by simp, by simp, by simp,
          by (intro w h heq; cases heq; exact ⟨rfl, rfl⟩), by simp, by simp⟩
    · rcases hp with hp | hp <;> rw [hp] <;>
        simp only [List.forall_mem_cons, List.forall_mem_nil, List.forall_mem_append,
          and_true, true_and, List.cons_append, List.nil_append, List.singleton_append]
      · exact ⟨by simp, by simp, by simp,
          by (intro w h heq; cases heq; exact ⟨rfl, rfl⟩), by simp, ih _⟩
      · exact ⟨by simp, by simp, by simp, by simp,
          by (intro w h heq; cases heq; exact ⟨rfl, rfl⟩), by simp, ih _⟩
    · rcases hp with hp | hp <;> rw [hp] <;>
        simp only [List.forall_mem_cons, List.forall_mem_nil, List.forall_mem_append,
          and_true, true_and, List.cons_append, List.nil_append, List.singleton_append]
      · exact ⟨by simp, by simp, by simp,
          by (intro w h heq; cases heq; exact ⟨rfl, rfl⟩), ih _⟩
      · exact ⟨by simp, by simp, by simp, by simp,
          by (intro w h heq; cases heq; exact ⟨rfl, rfl⟩), ih _⟩

/-- Every capture event of a record loop trace carries exactly the region
rectangle of the loop. -/
lemma record_loop_aux_captures_region (region : Region) (fi : ℚ) (envs : List CycleEnv) :
    ∀ t0 : ℚ, ∀ ev ∈ record_loop_aux region fi t0 envs,
      ∀ rect : Int × Int × Int × Int, ev = Ev.capture rect → rect = region.as_tuple := by
  induction envs with
  | nil =>
    intro t0 ev hev
    simp [record_loop_aux] at hev
  | cons env rest ih =>
    intro t0
    have hp := processFrame_events region ⟨env.capturedW, env.capturedH, ColorOrder.RGB⟩
    rw [record_loop_aux_cons]
    split_ifs with h1 h2 h3 h4
    · simp
    · simp only [List.forall_mem_cons, List.forall_mem_nil, and_true, true_and]
      exact ⟨by simp, by (intro rect heq; cases heq; rfl), by simp, by simp⟩
    · rcases hp with hp | hp <;> rw [hp] <;>
        simp only [List.forall_mem_cons, List.forall_mem_nil, List.forall_mem_append,
          and_true, true_and, List.cons_append, List.nil_append, List.singleton_append]
      · exact ⟨by simp, by (intro rect heq; cases heq; rfl), by simp,
          by simp, by simp, by simp⟩
      · exact ⟨by simp, by (intro rect heq; cases heq; rfl), by simp, by simp,
          by simp, by simp, by simp⟩
    · rcases hp with hp | hp <;> rw [hp] <;>
        simp only [List.forall_mem_cons, List.forall_mem_nil, List.forall_mem_append,
          and_true, true_and, List.cons_append, List.nil_append, List.singleton_append]
      · exact ⟨by simp, by (intro rect heq; cases heq; rfl), by simp,
          by simp, by simp, ih _⟩
      · exact ⟨by simp, by (intro rect heq; cases heq; rfl), by simp, by simp,
          by simp, by simp, ih _⟩
    · rcases hp with hp | hp <;> rw [hp] <;>
        simp only [List.forall_mem_cons, List.forall_mem_nil, List.forall_mem_append,
          and_true, true_and, List.cons_append, List.nil_append, List.singleton_append]
      · exact ⟨by simp, by (intro rect heq; cases heq; rfl), by simp,
          by simp, ih _⟩
      · exact ⟨by simp, by (intro rect heq; cases heq; rfl), by simp, by simp,
          by simp, ih _⟩

/-- C8: the frame handed to the writer is always color-converted (BGR, as
the encoder requires) with conversion as the first pipeline step of the
cycle, is resized to exactly (width, height) whenever the captured buffer
dimensions mismatch the expected ones, and every frame written by the
record loop carries exactly the region dimensions — never a wrong size. -/
theorem frame_pipeline_never_wrong_size (region : Region) (captured : Frame) :
    ((processFrame region captured).1.order = ColorOrder.BGR ∧
      (processFrame region captured).1.width = region.width ∧
      (processFrame region captured).1.height = region.height) ∧
    ((processFrame region captured).2.head? = some Ev.convertColor) ∧
    ((captured.height, captured.width) ≠ (region.height, region.width) →
      (processFrame region captured).2 =
        [Ev.convertColor, Ev.resize region.width region.height]) ∧
    (∀ (fi t0 : ℚ) (envs : List CycleEnv) (w h : Int),
      Ev.writeFrame w h ∈ record_loop_aux region fi t0 envs →
      w = region.width ∧ h = region.height) := by
  refine ⟨⟨(processFrame_dims region captured).2.2, (processFrame_dims region captured).1,
    (processFrame_dims region captured).2.1⟩, ?_, ?_, ?_⟩
  · rcases processFrame_events region captured with hp | hp <;> rw [hp] <;> rfl
  · intro hne
    unfold processFrame
    rw [if_pos (by simpa [cvtColor_RGB2BGR] using hne)]
  · intro fi t0 envs w h hev
    exact record_loop_aux_writes_sized region fi envs t0 _ hev w h rfl

/-- Witness for C8 at a concrete region and a mismatched captured frame. -/
theorem frame_pipeline_never_wrong_size_witness :
    ((processFrame ⟨0, 0, 4, 4⟩ ⟨6, 6, ColorOrder.RGB⟩).1.order = ColorOrder.BGR ∧
      (processFrame ⟨0, 0, 4, 4⟩ ⟨6, 6, ColorOrder.RGB⟩).1.width = 4 ∧
      (processFrame ⟨0, 0, 4, 4⟩ ⟨6, 6, ColorOrder.RGB⟩).1.height = 4) ∧
    (processFrame ⟨0, 0, 4, 4⟩ ⟨6, 6, ColorOrder.RGB⟩).2 =
      [Ev.convertColor, Ev.resize 4 4] := by
  have h := frame_pipeline_never_wrong_size ⟨0, 0, 4, 4⟩ ⟨6, 6, ColorOrder.RGB⟩
  exact ⟨h.1, h.2.2.1 (by decide)⟩

/-- C9: whenever the VideoRecorder constructor succeeds, the stored
region is the even-dimension normalization of the argument region (so it
always has even width and height), and this stored region is what the
session uses everywhere: the encoder sink is opened with its width and
height, and every capture of the record loop uses its rectangle. -/
theorem even_region_used_for_sink_and_capture (r : Region) (fps : Int) (fn : String)
    (vr : VideoRecorder) (h : VideoRecorder.init r fps fn = Except.ok vr) :
    r.make_even_dimensions = Except.ok vr.region ∧
    vr.region.width % 2 = 0 ∧ vr.region.height % 2 = 0 ∧
    (∀ writerOpens : Bool,
      Ev.openWriter vr.filename vr.fps vr.region.width vr.region.height ∈
        (vr.start_recording writerOpens).2.2) ∧
    (∀ (t0 : ℚ) (envs : List CycleEnv) (rect : Int × Int × Int × Int),
      Ev.capture rect ∈ record_loop vr t0 envs → rect = vr.region.as_tuple) := by
  cases hme : r.make_even_dimensions with
  | error e =>
    rw [VideoRecorder.init, hme] at h
    exact absurd h (by simp [Except.map])
  | ok r' =>
    rw [VideoRecorder.init, hme] at h
    simp only [Except.map] at h
    have hvr : vr = ⟨r', fps, fn, none, false, false⟩ := by
      cases h
      rfl
    subst hvr
    have hfields := (mkRegion_ok_iff _ _ _ _ _).1 hme
    refine ⟨rfl, ?_, ?_, ?_, ?_⟩
    · rw [hfields.2]
      simp only
      omega
    · rw [hfields.2]
      simp only
      omega
    · intro writerOpens
      unfold VideoRecorder.start_recording
      cases writerOpens <;> simp
    · intro t0 envs rect hev
      exact record_loop_aux_captures_region _ _ envs t0 _ hev rect rfl

/-- Witness for C9 at the concrete Region (10, 10, 101, 51), whose stored
normalization is (10, 10, 100, 50). -/
theorem even_region_used_for_sink_and_capture_witness :
    Region.make_even_dimensions ⟨10, 10, 101, 51⟩ =
      Except.ok (⟨⟨10, 10, 100, 50⟩, 30, "rec.mp4", none, false, false⟩ :
        VideoRecorder).region ∧
    ((⟨⟨10, 10, 100, 50⟩, 30, "rec.mp4", none, false, false⟩ :
        VideoRecorder).region.width % 2 = 0) ∧
    ((⟨⟨10, 10, 100, 50⟩, 30, "rec.mp4", none, false, false⟩ :
        VideoRecorder).region.height % 2 = 0) ∧
    Ev.openWriter "rec.mp4" 30 100 50 ∈
      ((⟨⟨10, 10, 100, 50⟩, 30, "rec.mp4", none, false, false⟩ :
        VideoRecorder).start_recording true).2.2 := by
  have h := even_region_used_for_sink_and_capture ⟨10, 10, 101, 51⟩ 30 "rec.mp4"
    ⟨⟨10, 10, 100, 50⟩, 30, "rec.mp4", none, false, false⟩ rfl
  exact ⟨h.1, h.2.1, h.2.2.1, h.2.2.2.1 true⟩

/-- C5: the loop checks the shared stop flag exactly once per cycle, at
the top; if the flag is observed set after any number of successful
cycles, the loop exits at that very check, with exactly one capture,
one write and one flag check per completed cycle — no capture or write
after the flag is seen, and the remaining pending cycles never run. -/
theorem stop_flag_exits_at_top_of_cycle (region : Region) (fi : ℚ)
    (pre : List CycleEnv) (env : CycleEnv) (rest : List CycleEnv)
    (hpre : ∀ e ∈ pre, e.stopSet = false ∧ e.captureOk = true ∧ e.writeOk = true)
    (henv : env.stopSet = true) :
    ∀ t0 : ℚ, ∃ tr1 : List Ev,
      record_loop_aux region fi t0 (pre ++ env :: rest) =
        tr1 ++ [Ev.checkStop true, Ev.loopExit] ∧
      countCaptures tr1 = pre.length ∧
      countWrites tr1 = pre.length ∧
      countChecks tr1 = pre.length := by
  induction pre with
  | nil =>
    intro t0
    refine ⟨[], ?_, rfl, rfl, rfl⟩
    rw [List.nil_append, record_loop_aux_cons, if_pos henv]
    rfl
  | cons e pre ih =>
    intro t0
    obtain ⟨hs, hc, hw⟩ := hpre e (List.mem_cons_self e pre)
    have hpre2 : ∀ x ∈ pre, x.stopSet = false ∧ x.captureOk = true ∧ x.writeOk = true :=
      fun x hx => hpre x (List.mem_cons_of_mem e hx)
    obtain ⟨tr1, htr, hcap, hwr, hch⟩ :=
      ih hpre2 (nextDeadline t0 fi e.timeAfterWrite e.timeAtReset).1
    rcases processFrame_events region ⟨e.capturedW, e.capturedH, ColorOrder.RGB⟩
        with hp | hp <;>
      refine ⟨Ev.checkStop false :: Ev.capture region.as_tuple ::
        (processFrame region ⟨e.capturedW, e.capturedH, ColorOrder.RGB⟩).2 ++
        Ev.writeFrame
          (processFrame region ⟨e.capturedW, e.capturedH, ColorOrder.RGB⟩).1.width
          (processFrame region ⟨e.capturedW, e.capturedH, ColorOrder.RGB⟩).1.height ::
        (if 0 < (nextDeadline t0 fi e.timeAfterWrite e.timeAtReset).2 then
            [Ev.sleep (nextDeadline t0 fi e.timeAfterWrite e.timeAtReset).2]
          else []) ++ tr1, ?_, ?_, ?_, ?_⟩
    all_goals first
      | (rw [List.cons_append, record_loop_aux_cons, if_neg (by simp [hs]),
          if_neg (by simp [hc]), if_neg (by simp [hw]), htr]
         simp [List.append_assoc])
      | (rw [hp]
         simp only [countCaptures, countWrites, countChecks] at hcap hwr hch ⊢
         split_ifs <;>
           simp [List.countP_cons, List.countP_append, isCaptureEv, isWriteEv,
             isCheckEv, hcap, hwr, hch])

/-- Witness for C5: one successful cycle, then the flag is observed. -/
theorem stop_flag_exits_at_top_of_cycle_witness :
    ∃ tr1 : List Ev,
      record_loop_aux ⟨0, 0, 4, 4⟩ 1 0
          ([⟨false, true, 4, 4, true, 0, 0⟩] ++ ⟨true, true, 4, 4, true, 0, 0⟩ :: []) =
        tr1 ++ [Ev.checkStop true, Ev.loopExit] ∧
      countCaptures tr1 = 1 ∧ countWrites tr1 = 1 ∧ countChecks tr1 = 1 := by
  have h := stop_flag_exits_at_top_of_cycle ⟨0, 0, 4, 4⟩ 1
    [⟨false, true, 4, 4, true, 0, 0⟩] ⟨true, true, 4, 4, true, 0, 0⟩ []
    (by decide) rfl 0
  simpa using h
